import Mathlib

/-!
Shallow embedding of the revset-explorer interactive graph view-model
(src/history.rs, src/jjgraph.rs, src/main.rs) and proofs about it.

The external jj engine (jj_lib) is modelled as record fields of fallible
functions mirroring the signatures the code calls; everything under src/
is translated operation by operation.
-/

namespace RevsetExplorer

/-! ## src/history.rs -/

/-- `History` (src/history.rs lines 1-6): per-field undo/redo log. -/
structure History where
  items : List String
  max_size : Nat
  view_pos : Nat
  last_is_tentative : Bool
deriving DecidableEq, Repr

/-- `History::new` (src/history.rs lines 9-16). -/
def History.new (maxSize : Nat) : History :=
  { items := [], max_size := maxSize, view_pos := 0, last_is_tentative := false }

/-- `History::add` (src/history.rs lines 18-32).
`Vec::remove(0)` is modelled by `List.tail`; the source would abort on an
empty vector, which can only happen when `max_size = 0` (all uses here
have `max_size = 10`). `Vec::pop` is `List.dropLast`. -/
def History.add (h : History) (arg : String) (is_tentative : Bool) : History :=
  if h.items.getLast? = some arg then h
  else
    let items1 := if h.items.length ≥ h.max_size then h.items.tail else h.items
    let items2 := if h.last_is_tentative then items1.dropLast else items1
    let items3 := items2 ++ [arg]
    { items := items3, max_size := h.max_size,
      view_pos := items3.length - 1, last_is_tentative := is_tentative }

/-- `History::get` (src/history.rs lines 34-36), with the indexing made
explicit as an `Option` (the source indexes unchecked). -/
def History.get (h : History) : Option String :=
  h.items[h.view_pos]?

/-- `History::set_last_tentative` (src/history.rs lines 38-40). -/
def History.set_last_tentative (h : History) (is_tentative : Bool) : History :=
  { h with last_is_tentative := is_tentative }

/-- `History::prev` (src/history.rs lines 42-44): `usize::saturating_sub`,
which is exactly `Nat` subtraction. -/
def History.prev (h : History) : History :=
  { h with view_pos := h.view_pos - 1 }

/-- Checked machine subtraction: `none` models the debug-build abort of
Rust `usize` subtraction on underflow. -/
def checkedSub (a b : Nat) : Option Nat :=
  if b ≤ a then some (a - b) else none

/-- `History::next` (src/history.rs lines 46-50). The source computes
`self.items.len() - 1` with unchecked `usize` arithmetic; `none` is the
debug-build underflow abort on an empty item list. -/
def History.next (h : History) : Option History :=
  match checkedSub h.items.length 1 with
  | none => none
  | some lastIdx =>
    some (if h.view_pos < lastIdx then { h with view_pos := h.view_pos + 1 } else h)

/-! ## src/jjgraph.rs -/

/-- `jj_lib::backend::CommitId`: opaque identifier, used only as a key. -/
abbrev CommitId := Nat

/-- An evaluated `Box<dyn Revset>`: the data the code consumes from it.
`iterGraph` is the `iter_graph()` stream of `(commit_id, edges)` items,
each of which can itself be an evaluation error; `containing` is the
membership test returned by `containing_fn()`. -/
structure RevsetData where
  iterGraph : List (Except String (CommitId × List CommitId))
  containing : CommitId → Except String Bool

/-- The jj_lib revset pipeline called by `JjGraph::get_revset`
(src/jjgraph.rs lines 66-96): `parse_with_modifier`,
`resolve_user_expression`, `evaluate` — each independently fallible,
with error payloads already rendered to strings (`e.to_string()`). -/
structure Engine where
  parseRevset : String → Except String Nat
  resolveUserExpression : Nat → Except String Nat
  evaluateRevset : Nat → Except String RevsetData

/-- The slice of `jj_lib::backend::Commit` used by `create_graph`:
only the change id matters for the node label. (The truncated
description computed in the source is dead: it never reaches the label.) -/
structure Commit where
  changeId : String
deriving DecidableEq, Repr

/-- The repository operations `create_graph` calls:
`view().get_wc_commit_id(...)`, `store().get_commit(...)`,
`shortest_unique_change_id_prefix_len(...)`. -/
structure Repo where
  wcCommitId : Option CommitId
  getCommit : CommitId → Except String Commit
  shortestUniqueChangeIdPrefixLen : String → Except String Nat

/-- `JjGraph` (src/jjgraph.rs lines 17-23): holds the loaded repo and the
revset machinery, modelled as the engine pipeline plus repo operations. -/
structure JjGraph where
  engine : Engine
  repo : Repo

/-- `RevsetError` (src/jjgraph.rs lines 25-29). -/
inductive RevsetError where
  | ParseError (msg : String)
deriving DecidableEq, Repr

/-- The `thiserror` display of `RevsetError`:
`#[error("Failed to parse revset: {0}")]`. -/
def RevsetError.toMessage : RevsetError → String
  | .ParseError m => "Failed to parse revset: " ++ m

/-- `JjGraph::get_revset` (src/jjgraph.rs lines 66-96): all three pipeline
stages map their error to `RevsetError::ParseError(e.to_string())`. -/
def get_revset (jj : JjGraph) (revset_str : String) : Except RevsetError RevsetData :=
  match jj.engine.parseRevset revset_str with
  | .error e => .error (.ParseError e)
  | .ok expr =>
    match jj.engine.resolveUserExpression expr with
    | .error e => .error (.ParseError e)
    | .ok resolved =>
      match jj.engine.evaluateRevset resolved with
      | .error e => .error (.ParseError e)
      | .ok revset => .ok revset

/-! ## src/main.rs -/

/-- `MAX_NODES` (src/main.rs line 11). -/
def MAX_NODES : Nat := 100

/-- One node of the `egui_graphs` graph: payload commit id, display label
(set by `add_node_with_label`), and the color set later by `set_color`
(`none` until `mark_graph` runs). Colors are `Color32` RGBA values,
modelled as the `Nat` 0xRRGGBBAA. -/
structure GraphNode where
  payload : CommitId
  label : String
  color : Option Nat
deriving DecidableEq, Repr

instance : Inhabited GraphNode := ⟨{ payload := 0, label := "", color := none }⟩

/-- `CreateError` (src/main.rs lines 109-113). -/
inductive CreateError where
  | RevsetParseError (msg : String)
  | JjError (msg : String)
deriving DecidableEq, Repr

/-- The message carried by a `CreateError` (what `update` stores in the
view field's error slot on failure, src/main.rs lines 329-330). -/
def CreateError.msg : CreateError → String
  | .RevsetParseError m => m
  | .JjError m => m

/-- The node-consuming loop of `create_graph` (src/main.rs lines 135-170),
as a recursion over the (already `take MAX_NODES`-capped) stream.
Accumulators: graph nodes, `node_idxs`, `node_map` (HashMap modelled as an
association list with newest binding first), and the raw candidate
`edges`. A fresh `StableGraph` hands out node indices 0,1,2,…, so the
index of a new node is the current node count. -/
def buildNodes (repo : Repo) (wc : Option CommitId) :
    List (Except String (CommitId × List CommitId)) →
    List GraphNode → List Nat → List (CommitId × Nat) → List (CommitId × CommitId) →
    Except CreateError (List GraphNode × List Nat × List (CommitId × Nat) × List (CommitId × CommitId))
  | [], nodes, node_idxs, node_map, edges => .ok (nodes, node_idxs, node_map, edges)
  | item :: rest, nodes, node_idxs, node_map, edges =>
    match item with
    | .error e => .error (.JjError e)
    | .ok (commit_id, commit_edges) =>
      match repo.getCommit commit_id with
      | .error e => .error (.JjError e)
      | .ok commit =>
        match repo.shortestUniqueChangeIdPrefixLen commit.changeId with
        | .error e => .error (.JjError e)
        | .ok change_id_len =>
          let change_id_short := commit.changeId.take change_id_len
          let label := if wc = some commit_id then "@ " ++ change_id_short else change_id_short
          let node_idx := nodes.length
          buildNodes repo wc rest
            (nodes ++ [{ payload := commit_id, label := label, color := none }])
            (node_idxs ++ [node_idx])
            ((commit_id, node_idx) :: node_map)
            (edges ++ commit_edges.map (fun target => (commit_id, target)))

/-- The edge-filtering loop of `create_graph` (src/main.rs lines 171-179):
a candidate whose source or target is not in `node_map` is skipped with
`continue`; surviving candidates become index edges. -/
def filterEdges (node_map : List (CommitId × Nat)) :
    List (CommitId × CommitId) → List (Nat × Nat)
  | [] => []
  | (a, b) :: rest =>
    match node_map.lookup a, node_map.lookup b with
    | some s, some e => (s, e) :: filterEdges node_map rest
    | some _, none => filterEdges node_map rest
    | none, _ => filterEdges node_map rest

/-- `create_graph` (src/main.rs lines 115-184). Returns
(nodes, edges, node_idxs, limit_hit); `limit_hit` is
`node_idxs.len() == MAX_NODES` (line 181). -/
def create_graph (jj : JjGraph) (revset_str : String) :
    Except CreateError (List GraphNode × List (Nat × Nat) × List Nat × Bool) :=
  match get_revset jj revset_str with
  | .error e => .error (.RevsetParseError e.toMessage)
  | .ok all_revset =>
    match buildNodes jj.repo jj.repo.wcCommitId (all_revset.iterGraph.take MAX_NODES) [] [] [] [] with
    | .error e => .error e
    | .ok (nodes, node_idxs, node_map, edges) =>
      let graph_edges := filterEdges node_map edges
      let limit_hit := node_idxs.length == MAX_NODES
      .ok (nodes, graph_edges, node_idxs, limit_hit)

/-- `MarkError` (src/main.rs lines 186-190). -/
inductive MarkError where
  | RevsetParseError (msg : String)
  | JjError
deriving DecidableEq, Repr

/-- `NodeType` (src/main.rs lines 246-251). -/
inductive NodeType where
  | WorkingCopy
  | Immutable
  | Regular
deriving DecidableEq, Repr

/-- `FilterMatch` (src/main.rs lines 252-256). -/
inductive FilterMatch where
  | Match
  | NoMatch
deriving DecidableEq, Repr

/-- The `color_map` of `mark_graph` (src/main.rs lines 269-279), with
`Color32::from_hex` values written as 0xRRGGBBAA. -/
def colorMap : NodeType → FilterMatch → Nat
  | .WorkingCopy, .Match => 0x26ff00ff
  | .WorkingCopy, .NoMatch => 0x295923ff
  | .Immutable, .Match => 0x21cdffff
  | .Immutable, .NoMatch => 0x2e5059ff
  | .Regular, .Match => 0xfffc00ff
  | .Regular, .NoMatch => 0x636222ff

/-- The `node_type` derivation of `mark_graph` (src/main.rs lines 257-263):
working copy beats immutable beats regular. -/
def nodeTypeOf (wc : Option CommitId) (commit_id : CommitId) (immutable : Bool) : NodeType :=
  if wc = some commit_id then .WorkingCopy
  else if immutable then .Immutable
  else .Regular

/-- The `filter_match` derivation of `mark_graph` (src/main.rs lines 264-268). -/
def filterMatchOf (matches_filter : Bool) : FilterMatch :=
  if matches_filter then .Match else .NoMatch

/-- The node loop of `mark_graph` (src/main.rs lines 236-281). Mutation of
`self.graph` is made explicit: the returned list is the node list after
the loop, and the optional `MarkError` is the early-`?` exit, taken with
the nodes recolored so far left in place. `node_mut(idx).unwrap()` is
modelled with `getD`; every reachable state has `node_idxs` indexing the
node list (they are built together by `create_graph`). The source probes
`is_immutable` before `in_filter`, in that order. -/
def markGraphLoop (is_immutable in_filter : CommitId → Except String Bool)
    (wc : Option CommitId) :
    List Nat → List GraphNode → List GraphNode × Option MarkError
  | [], nodes => (nodes, none)
  | idx :: rest, nodes =>
    let node := nodes.getD idx default
    match is_immutable node.payload with
    | .error _ => (nodes, some MarkError.JjError)
    | .ok immutable =>
      match in_filter node.payload with
      | .error _ => (nodes, some MarkError.JjError)
      | .ok matches_filter =>
        let c := colorMap (nodeTypeOf wc node.payload immutable) (filterMatchOf matches_filter)
        markGraphLoop is_immutable in_filter wc rest (nodes.set idx { node with color := some c })

/-- `RevsetEntry` (src/main.rs lines 93-97). -/
structure RevsetEntry where
  value : String
  old_value : String
  error : Option String
deriving DecidableEq, Repr

/-- `RevsetEntry::new` (src/main.rs lines 100-106). -/
def RevsetEntry.new (initial_value : String) : RevsetEntry :=
  { value := initial_value, old_value := "", error := none }

/-- `ExplorerApp` (src/main.rs lines 84-91): the graph is its node list
plus index edges; `jj_graph` and the cached working-copy id as in the
source. -/
structure ExplorerApp where
  filter_revset : RevsetEntry
  view_revset : RevsetEntry
  nodes : List GraphNode
  edges : List (Nat × Nat)
  node_idxs : List Nat
  jj_graph : JjGraph
  working_copy_commit_id : Option CommitId

/-- `ExplorerApp::mark_graph` (src/main.rs lines 214-288). Returns the
app with the (possibly partially) recolored node list together with the
`Result`. A failed filter revset is replaced by the constant-false
membership closure while remembering the parse error; a failure to
resolve `immutable()` returns `JjError` before the loop; the parse error
is reported only after a full loop. -/
def mark_graph (app : ExplorerApp) : ExplorerApp × Except MarkError Unit :=
  let filter_revset := get_revset app.jj_graph app.filter_revset.value
  let inFilterAndErr : (CommitId → Except String Bool) × Option RevsetError :=
    match filter_revset with
    | .ok fr => (fr.containing, none)
    | .error e => (fun _ => .ok false, some e)
  match get_revset app.jj_graph "immutable()" with
  | .error _ => (app, .error MarkError.JjError)
  | .ok immutable_revset =>
    let res := markGraphLoop immutable_revset.containing inFilterAndErr.1
        app.working_copy_commit_id app.node_idxs app.nodes
    let app' := { app with nodes := res.1 }
    match res.2 with
    | some err => (app', .error err)
    | none =>
      match inFilterAndErr.2 with
      | some e => (app', .error (MarkError.RevsetParseError e.toMessage))
      | none => (app', .ok ())

/-- The view-field block of `ExplorerApp::update` (src/main.rs lines
315-333): when the view text changed, rebuild; on success replace graph,
node list and store the limit warning (or `none`) in the view error; on
failure store the message; in both cases set `old_value`. -/
def updateView (app : ExplorerApp) : ExplorerApp :=
  if app.view_revset.value != app.view_revset.old_value then
    match create_graph app.jj_graph app.view_revset.value with
    | .ok (nodes, edges, node_idxs, limit_hit) =>
      { app with
        nodes := nodes,
        edges := edges,
        node_idxs := node_idxs,
        view_revset := { app.view_revset with
          error := if limit_hit then some "Node limit reached. The graph is incomplete." else none,
          old_value := app.view_revset.value } }
    | .error (.RevsetParseError msg) =>
      { app with view_revset := { app.view_revset with
          error := some msg, old_value := app.view_revset.value } }
    | .error (.JjError msg) =>
      { app with view_revset := { app.view_revset with
          error := some msg, old_value := app.view_revset.value } }
  else app

/-- The filter-field block of `ExplorerApp::update` (src/main.rs lines
335-343): when the view changed this tick or the filter text changed,
run `mark_graph`; a parse error is stored in the filter field's error,
`Ok` and `JjError` both store `none`; `old_value` is set. -/
def updateFilter (app : ExplorerApp) (view_updated : Bool) : ExplorerApp :=
  if view_updated || (app.filter_revset.value != app.filter_revset.old_value) then
    let res := mark_graph app
    let err : Option String :=
      match res.2 with
      | .ok _ => none
      | .error (.RevsetParseError msg) => some msg
      | .error .JjError => none
    { res.1 with filter_revset := { res.1.filter_revset with
        error := err, old_value := res.1.filter_revset.value } }
  else app

/-- `ExplorerApp::update` (src/main.rs lines 292-376), restricted to the
view-model state (the rendering calls change none of these fields):
`view_updated` is computed first, then the two processing blocks run in
order. -/
def update (app : ExplorerApp) : ExplorerApp :=
  let view_updated := app.view_revset.value != app.view_revset.old_value
  updateFilter (updateView app) view_updated

/-! ## Characterization helpers (proof side)

`markPure` restates the `mark_graph` node loop in the failure-free case as
a pure recoloring; it is proved equal to `markGraphLoop` whenever both
membership closures are total. -/

/-- The per-node effect of one loop iteration of `mark_graph`, when the
membership probes return `f`/`g`: keep payload and label, set the color. -/
def recolorNode (wc : Option CommitId) (f g : CommitId → Bool) (node : GraphNode) : GraphNode :=
  let c := colorMap (nodeTypeOf wc node.payload (f node.payload)) (filterMatchOf (g node.payload))
  { node with color := some c }

/-- Pure form of the `mark_graph` node loop for failure-free probes. -/
def markPure (wc : Option CommitId) (f g : CommitId → Bool) :
    List Nat → List GraphNode → List GraphNode
  | [], nodes => nodes
  | idx :: rest, nodes =>
    markPure wc f g rest (nodes.set idx (recolorNode wc f g (nodes.getD idx default)))

/-! ## Concrete fixtures for counterexamples and witnesses -/

/-- A repository whose operations are never reached in the scenarios that
use it (their revsets have empty streams). -/
def repoUnused : Repo :=
  { wcCommitId := none,
    getCommit := fun _ => .error "unreached",
    shortestUniqueChangeIdPrefixLen := fun _ => .error "unreached" }

/-- Engine where parsing succeeds but `evaluate` fails: a non-parse
evaluation failure inside `get_revset`. -/
def jjEvalFail : JjGraph :=
  { engine :=
      { parseRevset := fun _ => .ok 0,
        resolveUserExpression := fun n => .ok n,
        evaluateRevset := fun _ => .error "missing object" },
    repo := repoUnused }

/-- Engine where parsing itself fails. -/
def jjParseFail : JjGraph :=
  { engine :=
      { parseRevset := fun _ => .error "bad",
        resolveUserExpression := fun n => .ok n,
        evaluateRevset := fun _ => .error "unreached" },
    repo := repoUnused }

/-- Engine for the classification-probe-failure scenario: the filter
query "f" resolves to an everything-matches revset, `immutable()`
resolves, but its membership probe fails on any commit other than 0. -/
def engineProbeFail : Engine :=
  { parseRevset := fun s =>
      if s = "f" then .ok 0 else if s = "immutable()" then .ok 1 else .error "parse",
    resolveUserExpression := fun n => .ok n,
    evaluateRevset := fun n =>
      if n = 0 then .ok { iterGraph := [], containing := fun _ => .ok true }
      else if n = 1 then
        .ok { iterGraph := [],
              containing := fun c => if c = 0 then .ok false else .error "backend" }
      else .error "no such revset" }

/-- App state for the C1 counterexample: clean view field, dirty filter
field, a previously classified two-node graph, a previously recorded
filter error, and an immutability probe that fails on the second node. -/
def appProbeFail : ExplorerApp :=
  { filter_revset := { value := "f", old_value := "", error := some "old error" },
    view_revset := { value := "v", old_value := "v", error := none },
    nodes := [{ payload := 0, label := "a", color := some 1 },
              { payload := 7, label := "b", color := some 2 }],
    edges := [],
    node_idxs := [0, 1],
    jj_graph := { engine := engineProbeFail, repo := repoUnused },
    working_copy_commit_id := none }

/-- App state where resolving any revset (including `immutable()`) fails:
clean view field, dirty filter field, stale filter error. -/
def appEngineDown : ExplorerApp :=
  { filter_revset := { value := "g", old_value := "", error := some "stale" },
    view_revset := { value := "v", old_value := "v", error := none },
    nodes := [{ payload := 3, label := "n", color := some 9 }],
    edges := [],
    node_idxs := [0],
    jj_graph := jjParseFail,
    working_copy_commit_id := none }

/-- Engine with a two-commit view revset "v" (5 with parent 9, 9 with a
parent 3 outside the set), an immutability revset containing exactly 5,
and the working copy at 5. -/
def jjTwo : JjGraph :=
  { engine :=
      { parseRevset := fun s =>
          if s = "v" then .ok 0 else if s = "immutable()" then .ok 1 else .error "parse",
        resolveUserExpression := fun n => .ok n,
        evaluateRevset := fun n =>
          if n = 0 then
            .ok { iterGraph := [.ok (5, [9]), .ok (9, [3])], containing := fun _ => .ok true }
          else if n = 1 then
            .ok { iterGraph := [], containing := fun c => .ok (c == 5) }
          else .error "no such revset" },
    repo :=
      { wcCommitId := some 5,
        getCommit := fun _ => .ok { changeId := "ab" },
        shortestUniqueChangeIdPrefixLen := fun _ => .ok 1 } }

/-- Engine whose view revset "big" yields a 100-item stream (hitting
`MAX_NODES`) and whose `immutable()` revset is empty; any other query
text fails to parse. -/
def jjBig : JjGraph :=
  { engine :=
      { parseRevset := fun s =>
          if s = "big" then .ok 0 else if s = "immutable()" then .ok 1 else .error "syntax",
        resolveUserExpression := fun n => .ok n,
        evaluateRevset := fun n =>
          if n = 0 then
            .ok { iterGraph := (List.range 100).map (fun i => .ok (i, [])),
                  containing := fun _ => .ok false }
          else if n = 1 then
            .ok { iterGraph := [], containing := fun _ => .ok false }
          else .error "no such revset" },
    repo :=
      { wcCommitId := none,
        getCommit := fun _ => .ok { changeId := "zz" },
        shortestUniqueChangeIdPrefixLen := fun _ => .ok 1 } }

/-- App state for the C3 counterexample: a dirty view field whose query
"big" builds successfully but hits the node cap. The filter field is
clean. -/
def appBig : ExplorerApp :=
  { filter_revset := { value := "f2", old_value := "f2", error := none },
    view_revset := { value := "big", old_value := "", error := none },
    nodes := [], edges := [], node_idxs := [],
    jj_graph := jjBig,
    working_copy_commit_id := none }

/-- App state for the C8 counterexample: a valid view query "big" that
hits the node cap, paired with a malformed selection query. -/
def appBigBadFilter : ExplorerApp :=
  { filter_revset := { value := "bad(", old_value := "", error := none },
    view_revset := { value := "big", old_value := "", error := none },
    nodes := [], edges := [], node_idxs := [],
    jj_graph := jjBig,
    working_copy_commit_id := none }

/-- App state for the amended C8 witness: a valid two-node view query
that stays under the cap, paired with a malformed selection query; the
working copy is commit 5 and commit 5 is immutable. -/
def appTwoBadFilter : ExplorerApp :=
  { filter_revset := { value := "(((", old_value := "", error := none },
    view_revset := { value := "v", old_value := "", error := none },
    nodes := [], edges := [], node_idxs := [],
    jj_graph := jjTwo,
    working_copy_commit_id := some 5 }

/-- App state for the C3/C6 witnesses: view field dirty over `jjTwo`. -/
def appTwoView : ExplorerApp :=
  { filter_revset := { value := "x", old_value := "x", error := none },
    view_revset := { value := "v", old_value := "", error := some "previous" },
    nodes := [{ payload := 5, label := "q", color := some 7 }],
    edges := [(0, 0)],
    node_idxs := [0],
    jj_graph := jjTwo,
    working_copy_commit_id := none }

/-- App state for the C6 witness: dirty view field whose query fails to
parse. -/
def appTwoBadView : ExplorerApp :=
  { filter_revset := { value := "x", old_value := "x", error := none },
    view_revset := { value := "nope", old_value := "", error := none },
    nodes := [{ payload := 5, label := "q", color := some 7 }],
    edges := [(0, 0)],
    node_idxs := [0],
    jj_graph := jjTwo,
    working_copy_commit_id := none }

/-! ## General list helper lemmas -/

/-- Setting an index past the end of a list is a no-op. -/
theorem list_set_of_length_le {α : Type _} :
    ∀ (l : List α) (i : Nat) (a : α), l.length ≤ i → l.set i a = l
  | [], _, _, _ => rfl
  | _ :: t, 0, a, h => by simp at h
  | x :: t, i + 1, a, h => by
    simp only [List.set]
    rw [list_set_of_length_le t i a (by simpa using h)]

/-- `getD` at an index past the end returns the default. -/
theorem list_getD_of_length_le {α : Type _} :
    ∀ (l : List α) (i : Nat) (d : α), l.length ≤ i → l.getD i d = d
  | [], _, _, _ => rfl
  | _ :: t, 0, d, h => by simp at h
  | x :: t, i + 1, d, h => by
    simpa [List.getD] using list_getD_of_length_le t i d (by simpa using h)

/-- `getD` at an in-range index does not depend on the default. -/
theorem list_getD_irrel {α : Type _} :
    ∀ (l : List α) (i : Nat) (d d' : α), i < l.length → l.getD i d = l.getD i d'
  | [], i, _, _, h => by simp at h
  | x :: t, 0, d, d', _ => rfl
  | x :: t, i + 1, d, d', h => by
    simpa [List.getD] using list_getD_irrel t i d d' (by simpa using h)

/-- `getD` after `set` at the same in-range index yields the new value. -/
theorem list_getD_set_eq {α : Type _} :
    ∀ (l : List α) (i : Nat) (a d : α), i < l.length → (l.set i a).getD i d = a
  | [], i, _, _, h => by simp at h
  | x :: t, 0, a, d, _ => rfl
  | x :: t, i + 1, a, d, h => by
    simpa [List.set, List.getD] using list_getD_set_eq t i a d (by simpa using h)

/-- `getD` after `set` at a different index is unchanged. -/
theorem list_getD_set_ne {α : Type _} :
    ∀ (l : List α) (i j : Nat) (a d : α), i ≠ j → (l.set i a).getD j d = l.getD j d
  | [], _, _, _, _, _ => rfl
  | x :: t, 0, 0, a, d, h => absurd rfl h
  | x :: t, 0, j + 1, a, d, _ => rfl
  | x :: t, i + 1, 0, a, d, _ => rfl
  | x :: t, i + 1, j + 1, a, d, h => by
    simpa [List.set, List.getD] using list_getD_set_ne t i j a d (fun e => h (by rw [e]))

/-- Replacing a node by a color-modified copy of itself leaves any
color-independent projection of the list unchanged. -/
theorem list_set_recolor_map {β : Type _} (F : GraphNode → β)
    (hF : ∀ n c, F { n with color := c } = F n) :
    ∀ (l : List GraphNode) (i : Nat) (c : Option Nat),
      (l.set i { l.getD i default with color := c }).map F = l.map F
  | [], _, _ => rfl
  | x :: t, 0, c => by simp [List.set, List.getD, hF]
  | x :: t, i + 1, c => by
    simpa [List.set, List.getD] using list_set_recolor_map F hF t i c

/-- A successful association-list lookup comes from some entry with that
value. -/
theorem list_lookup_mem {β : Type _} :
    ∀ (m : List (CommitId × β)) (a : CommitId) (i : β),
      m.lookup a = some i → ∃ k, (k, i) ∈ m
  | [], a, i, h => by simp [List.lookup] at h
  | (k, v) :: t, a, i, h => by
    by_cases hk : a == k
    · refine ⟨k, ?_⟩
      simp only [List.lookup, hk] at h
      cases h
      exact List.mem_cons_self _ _
    · rw [Bool.not_eq_true] at hk
      simp only [List.lookup, hk] at h
      obtain ⟨k', hk'⟩ := list_lookup_mem t a i h
      exact ⟨k', List.mem_cons_of_mem _ hk'⟩

/-! ## C2 — consecutive duplicates in History -/

/-- C2: the claim that the stored item sequence never contains two
consecutive equal values is violated by the code. A tentative last entry
is popped after the duplicate check has already passed, so adding a value
equal to the entry before the tentative one produces two consecutive
equal items: `add "a" false; add "b" true; add "a" false` stores
`["a", "a"]`. -/
theorem history_add_tentative_duplicate_bug :
    ((((History.new 10).add "a" false).add "b" true).add "a" false).items = ["a", "a"] ∧
    ¬ List.Chain' (fun x y => x ≠ y)
        ((((History.new 10).add "a" false).add "b" true).add "a" false).items := by
  constructor
  · rfl
  · intro hchain
    rw [show ((((History.new 10).add "a" false).add "b" true).add "a" false).items
          = ["a", "a"] from rfl] at hchain
    exact (List.chain'_cons.mp hchain).1 rfl

/-! ## C10 — History.next on an empty history -/

/-- C10: before any `add`, `next()` computes `items.len() - 1` on an
empty list, which underflows (checked-build abort, modelled by `none`),
while `prev()` saturates at 0 and leaves the state unchanged. -/
theorem history_next_empty (h : History)
    (hitems : h.items = []) (hpos : h.view_pos = 0) :
    h.next = none ∧ h.prev = h := by
  constructor
  · simp [History.next, checkedSub, hitems]
  · cases h
    simp_all [History.prev]

/-- Witness for C10 at the freshly constructed history. -/
theorem history_next_empty_witness :
    (History.new 10).next = none ∧ (History.new 10).prev = History.new 10 :=
  history_next_empty (History.new 10) rfl rfl

/-! ## C7 — classification totality, precedence and distinct colors -/

/-- C7: the per-node category derivation of `mark_graph` is total — each
node gets exactly one `NodeType` (the three iff-characterizations below
are mutually exclusive and exhaustive) — the identity part prefers
WorkingCopy over Immutable over Regular, and the six category colors of
`colorMap` are pairwise distinct. -/
theorem classification_total_precedence (wc : Option CommitId)
    (commit_id : CommitId) (immutable : Bool) :
    (nodeTypeOf wc commit_id immutable = NodeType.WorkingCopy ↔ wc = some commit_id) ∧
    (nodeTypeOf wc commit_id immutable = NodeType.Immutable ↔
      (wc ≠ some commit_id ∧ immutable = true)) ∧
    (nodeTypeOf wc commit_id immutable = NodeType.Regular ↔
      (wc ≠ some commit_id ∧ immutable = false)) ∧
    (∀ nt fm nt' fm', colorMap nt fm = colorMap nt' fm' → nt = nt' ∧ fm = fm') := by
  refine ⟨?_, ?_, ?_, ?_⟩
  · unfold nodeTypeOf
    split
    · simp_all
    · split <;> simp_all
  · unfold nodeTypeOf
    split
    · simp_all
    · split <;> simp_all
  · unfold nodeTypeOf
    split
    · simp_all
    · split <;> simp_all
  · intro nt fm nt' fm' hcol
    cases nt <;> cases fm <;> cases nt' <;> cases fm' <;>
      first
      | exact ⟨rfl, rfl⟩
      | exact absurd hcol (by decide)

/-- Witness for C7: a node that is both the working copy and immutable is
classified WorkingCopy. -/
theorem classification_total_precedence_witness :
    nodeTypeOf (some 3) 3 true = NodeType.WorkingCopy :=
  (classification_total_precedence (some 3) 3 true).1.mpr rfl

/-! ## Lemmas about the node-building loop -/

/-- `buildNodes` only ever fails with `JjError`: the node loop never
produces a `RevsetParseError`. -/
theorem buildNodes_error_jj (repo : Repo) (wc : Option CommitId) :
    ∀ (items : List (Except String (CommitId × List CommitId)))
      (nodes : List GraphNode) (node_idxs : List Nat)
      (node_map : List (CommitId × Nat)) (edges : List (CommitId × CommitId))
      (err : CreateError),
      buildNodes repo wc items nodes node_idxs node_map edges = .error err →
      ∃ m, err = CreateError.JjError m := by
  intro items
  induction items with
  | nil =>
    intro nodes node_idxs node_map edges err h
    simp [buildNodes] at h
  | cons item rest ih =>
    intro nodes node_idxs node_map edges err h
    cases item with
    | error msg =>
      simp only [buildNodes] at h
      injection h with h
      exact ⟨msg, h.symm⟩
    | ok p =>
      obtain ⟨cid, ces⟩ := p
      simp only [buildNodes] at h
      cases hg : repo.getCommit cid with
      | error msg =>
        simp only [hg] at h
        injection h with h
        exact ⟨msg, h.symm⟩
      | ok commit =>
        simp only [hg] at h
        cases hp : repo.shortestUniqueChangeIdPrefixLen commit.changeId with
        | error msg =>
          simp only [hp] at h
          injection h with h
          exact ⟨msg, h.symm⟩
        | ok len =>
          simp only [hp] at h
          exact ih _ _ _ _ _ h

/-- Shape of a successful `buildNodes` run: the node count grows by one
per consumed stream item, the index list is extended by the consecutive
fresh indices, and every `node_map` entry keeps pointing below the final
node count. -/
theorem buildNodes_ok_shape (repo : Repo) (wc : Option CommitId) :
    ∀ (items : List (Except String (CommitId × List CommitId)))
      (nodes : List GraphNode) (node_idxs : List Nat)
      (node_map : List (CommitId × Nat)) (edges : List (CommitId × CommitId))
      (ns : List GraphNode) (idxsOut : List Nat) (mOut : List (CommitId × Nat))
      (esOut : List (CommitId × CommitId)),
      buildNodes repo wc items nodes node_idxs node_map edges = .ok (ns, idxsOut, mOut, esOut) →
      ns.length = nodes.length + items.length ∧
      idxsOut = node_idxs ++ List.range' nodes.length items.length ∧
      ((∀ p ∈ node_map, p.2 < nodes.length) → ∀ p ∈ mOut, p.2 < ns.length) := by
  intro items
  induction items with
  | nil =>
    intro nodes node_idxs node_map edges ns idxsOut mOut esOut h
    simp only [buildNodes, Except.ok.injEq, Prod.mk.injEq] at h
    obtain ⟨h1, h2, h3, h4⟩ := h
    subst h1 h2 h3 h4
    refine ⟨by simp, by simp, fun hm p hp => ?_⟩
    simpa using hm p hp
  | cons item rest ih =>
    intro nodes node_idxs node_map edges ns idxsOut mOut esOut h
    cases item with
    | error msg => simp only [buildNodes] at h; cases h
    | ok p =>
      obtain ⟨cid, ces⟩ := p
      simp only [buildNodes] at h
      cases hg : repo.getCommit cid with
      | error msg => simp only [hg] at h; cases h
      | ok commit =>
        simp only [hg] at h
        cases hp : repo.shortestUniqueChangeIdPrefixLen commit.changeId with
        | error msg => simp only [hp] at h; cases h
        | ok len =>
          simp only [hp] at h
          obtain ⟨h1, h2, h3⟩ := ih _ _ _ _ _ _ _ _ h
          refine ⟨by simp at h1 ⊢; omega, ?_, ?_⟩
          · rw [h2]
            simp [List.range'_succ, List.append_assoc]
          · intro hm
            refine h3 fun q hq => ?_
            simp only [List.length_append, List.length_cons, List.length_nil]
            rcases List.mem_cons.mp hq with hq | hq
            · rw [hq]; omega
            · have := hm q hq; omega

/-- Every edge surviving `filterEdges` got both endpoints from successful
`node_map` lookups. -/
theorem filterEdges_mem (node_map : List (CommitId × Nat)) :
    ∀ (cand : List (CommitId × CommitId)) (e : Nat × Nat),
      e ∈ filterEdges node_map cand →
      (∃ a, node_map.lookup a = some e.1) ∧ (∃ b, node_map.lookup b = some e.2) := by
  intro cand
  induction cand with
  | nil => intro e h; simp [filterEdges] at h
  | cons c rest ih =>
    intro e h
    obtain ⟨a, b⟩ := c
    simp only [filterEdges] at h
    cases ha : node_map.lookup a with
    | none => rw [ha] at h; exact ih e h
    | some s =>
      rw [ha] at h
      cases hb : node_map.lookup b with
      | none => rw [hb] at h; exact ih e h
      | some t =>
        rw [hb] at h
        rcases List.mem_cons.mp h with he | he
        · rw [he]; exact ⟨⟨a, ha⟩, ⟨b, hb⟩⟩
        · exact ih e he

/-- A candidate parent edge whose source or target is missing from the
node map is skipped without an error, contributing nothing. -/
theorem filterEdges_drop (node_map : List (CommitId × Nat))
    (a b : CommitId) (rest : List (CommitId × CommitId))
    (h : node_map.lookup a = none ∨ node_map.lookup b = none) :
    filterEdges node_map ((a, b) :: rest) = filterEdges node_map rest := by
  rcases h with h | h
  · simp [filterEdges, h]
  · cases ha : node_map.lookup a <;> simp [filterEdges, ha, h]

/-! ## C9 — error kinds of the build step -/

/-- C9 counterexample: with an engine whose parse stage succeeds on the
query "x" but whose evaluate stage fails with "missing object" (a
non-parse evaluation failure), `create_graph` reports a
`RevsetParseError`, not a `JjError` — the two kinds are conflated. -/
theorem evaluate_error_reported_as_parse_counterexample :
    jjEvalFail.engine.parseRevset "x" = .ok 0 ∧
    create_graph jjEvalFail "x" =
      .error (.RevsetParseError "Failed to parse revset: missing object") := by
  exact ⟨rfl, rfl⟩

/-- C9 amended: `create_graph` returns `RevsetParseError` exactly when
`get_revset` fails — i.e. when any of the parse, symbol-resolution or
evaluation stages fails, not only for malformed query text — and it can
return `JjError` only after `get_revset` succeeded (for failures while
materializing nodes). Every failure is reported as exactly one of the two
kinds. -/
theorem create_graph_error_kinds (jj : JjGraph) (s : String) :
    ((∃ m, create_graph jj s = .error (.RevsetParseError m)) ↔
      (∃ e, get_revset jj s = .error e)) ∧
    ((∃ m, create_graph jj s = .error (.JjError m)) →
      ∃ rv, get_revset jj s = .ok rv) := by
  constructor
  · constructor
    · rintro ⟨m, hm⟩
      cases hr : get_revset jj s with
      | error e => exact ⟨e, rfl⟩
      | ok rv =>
        exfalso
        simp only [create_graph, hr] at hm
        cases hb : buildNodes jj.repo jj.repo.wcCommitId (rv.iterGraph.take MAX_NODES) [] [] [] [] with
        | error e =>
          rw [hb] at hm
          cases hm
          obtain ⟨m', hm'⟩ := buildNodes_error_jj jj.repo jj.repo.wcCommitId _ _ _ _ _ _ hb
          simp at hm'
        | ok q =>
          obtain ⟨ns, idxsOut, mOut, esOut⟩ := q
          rw [hb] at hm
          simp at hm
    · rintro ⟨e, he⟩
      exact ⟨e.toMessage, by simp [create_graph, he]⟩
  · rintro ⟨m, hm⟩
    cases hr : get_revset jj s with
    | ok rv => exact ⟨rv, rfl⟩
    | error e =>
      exfalso
      simp only [create_graph, hr] at hm
      cases hm

/-- Witness for C9 amended: a failing parse stage yields a
`RevsetParseError` from the build step. -/
theorem create_graph_error_kinds_witness :
    ∃ m, create_graph jjParseFail "q" = .error (.RevsetParseError m) :=
  (create_graph_error_kinds jjParseFail "q").1.mpr ⟨.ParseError "bad", rfl⟩

/-! ## C4 — node cap and overflow flag -/

/-- C4: a successful build returns at most `MAX_NODES` nodes, and the
overflow flag is true exactly when the node count equals `MAX_NODES`. -/
theorem create_graph_cap (jj : JjGraph) (s : String)
    (nodes : List GraphNode) (edges : List (Nat × Nat)) (node_idxs : List Nat)
    (limit_hit : Bool)
    (h : create_graph jj s = .ok (nodes, edges, node_idxs, limit_hit)) :
    nodes.length ≤ MAX_NODES ∧ (limit_hit = true ↔ nodes.length = MAX_NODES) := by
  cases hr : get_revset jj s with
  | error e => simp [create_graph, hr] at h
  | ok rv =>
    simp only [create_graph, hr] at h
    cases hb : buildNodes jj.repo jj.repo.wcCommitId (rv.iterGraph.take MAX_NODES) [] [] [] [] with
    | error e => rw [hb] at h; cases h
    | ok q =>
      obtain ⟨ns, idxsOut, mOut, esOut⟩ := q
      rw [hb] at h
      simp only [Except.ok.injEq, Prod.mk.injEq] at h
      obtain ⟨hns, hes, hidxs, hlh⟩ := h
      obtain ⟨h1, h2, _⟩ := buildNodes_ok_shape jj.repo jj.repo.wcCommitId _ _ _ _ _ _ _ _ _ hb
      have hlen : ns.length ≤ MAX_NODES := by
        rw [h1]
        simp [List.length_take]
      have hidlen : idxsOut.length = ns.length := by
        rw [h1, h2]
        simp
      subst hns hlh
      refine ⟨hlen, ?_⟩
      rw [← hidlen]
      exact beq_iff_eq

/-- Witness for C4 at the two-commit build of `jjTwo`. -/
theorem create_graph_cap_witness :
    ([{ payload := 5, label := "@ a", color := none },
      { payload := 9, label := "a", color := none }] : List GraphNode).length ≤ MAX_NODES ∧
    ((false = true) ↔
      ([{ payload := 5, label := "@ a", color := none },
        { payload := 9, label := "a", color := none }] : List GraphNode).length = MAX_NODES) :=
  create_graph_cap jjTwo "v"
    [{ payload := 5, label := "@ a", color := none },
     { payload := 9, label := "a", color := none }]
    [(0, 1)] [0, 1] false rfl

/-! ## C5 — edge endpoints lie in the build's node set -/

/-- C5: every edge of a successful build references node indices of that
same build (both endpoints below the node count: no dangling edges), and
a candidate parent edge whose endpoint is missing from the node map is
silently dropped — `filterEdges` simply continues with the remaining
candidates, producing no error. -/
theorem create_graph_edges_valid (jj : JjGraph) (s : String)
    (nodes : List GraphNode) (edges : List (Nat × Nat)) (node_idxs : List Nat)
    (limit_hit : Bool)
    (h : create_graph jj s = .ok (nodes, edges, node_idxs, limit_hit)) :
    (∀ e ∈ edges, e.1 < nodes.length ∧ e.2 < nodes.length) ∧
    (∀ (m : List (CommitId × Nat)) (a b : CommitId) (rest : List (CommitId × CommitId)),
      (m.lookup a = none ∨ m.lookup b = none) →
      filterEdges m ((a, b) :: rest) = filterEdges m rest) := by
  refine ⟨?_, fun m a b rest hd => filterEdges_drop m a b rest hd⟩
  cases hr : get_revset jj s with
  | error e => simp [create_graph, hr] at h
  | ok rv =>
    simp only [create_graph, hr] at h
    cases hb : buildNodes jj.repo jj.repo.wcCommitId (rv.iterGraph.take MAX_NODES) [] [] [] [] with
    | error e => rw [hb] at h; cases h
    | ok q =>
      obtain ⟨ns, idxsOut, mOut, esOut⟩ := q
      rw [hb] at h
      simp only [Except.ok.injEq, Prod.mk.injEq] at h
      obtain ⟨hns, hes, hidxs, hlh⟩ := h
      obtain ⟨_, _, h3⟩ := buildNodes_ok_shape jj.repo jj.repo.wcCommitId _ _ _ _ _ _ _ _ _ hb
      have hmap : ∀ p ∈ mOut, p.2 < ns.length := h3 (by simp)
      intro e he
      rw [← hes] at he
      obtain ⟨⟨a, ha⟩, ⟨b, hbk⟩⟩ := filterEdges_mem mOut esOut e he
      obtain ⟨ka, hka⟩ := list_lookup_mem mOut a e.1 ha
      obtain ⟨kb, hkb⟩ := list_lookup_mem mOut b e.2 hbk
      subst hns
      exact ⟨hmap (ka, e.1) hka, hmap (kb, e.2) hkb⟩

/-- Witness for C5 at the two-commit build of `jjTwo`: the surviving
edge (0, 1) has both endpoints among the two nodes (the candidate edge to
commit 3, outside the set, was dropped). -/
theorem create_graph_edges_valid_witness :
    ((0, 1) : Nat × Nat).1 <
      ([{ payload := 5, label := "@ a", color := none },
        { payload := 9, label := "a", color := none }] : List GraphNode).length ∧
    ((0, 1) : Nat × Nat).2 <
      ([{ payload := 5, label := "@ a", color := none },
        { payload := 9, label := "a", color := none }] : List GraphNode).length :=
  (create_graph_edges_valid jjTwo "v"
    [{ payload := 5, label := "@ a", color := none },
     { payload := 9, label := "a", color := none }]
    [(0, 1)] [0, 1] false rfl).1 (0, 1) (List.mem_singleton.mpr rfl)

/-! ## Lemmas about the classification loop -/

/-- Recoloring twice is the same as recoloring once (the color does not
feed back into the classification, which reads only the payload). -/
theorem recolorNode_idem (wc : Option CommitId) (f g : CommitId → Bool) (n : GraphNode) :
    recolorNode wc f g (recolorNode wc f g n) = recolorNode wc f g n := rfl

/-- `markGraphLoop` preserves payloads and labels (it only sets colors),
whether or not a probe fails along the way. -/
theorem markGraphLoop_structure
    (is_immutable in_filter : CommitId → Except String Bool) (wc : Option CommitId) :
    ∀ (idxs : List Nat) (nodes : List GraphNode),
      ((markGraphLoop is_immutable in_filter wc idxs nodes).1).map (fun n => (n.payload, n.label)) =
        nodes.map (fun n => (n.payload, n.label)) := by
  intro idxs
  induction idxs with
  | nil => intro nodes; rfl
  | cons idx rest ih =>
    intro nodes
    simp only [markGraphLoop]
    cases hi : is_immutable (nodes.getD idx default).payload with
    | error e => rfl
    | ok immutable =>
      cases hm : in_filter (nodes.getD idx default).payload with
      | error e => rfl
      | ok matches_filter =>
        rw [ih]
        exact list_set_recolor_map (fun n => (n.payload, n.label)) (fun n c => rfl) nodes idx _

/-- When both membership probes are total, the `mark_graph` loop never
fails and equals the pure recoloring `markPure`. -/
theorem markGraphLoop_total (is_immutable in_filter : CommitId → Except String Bool)
    (wc : Option CommitId) (f g : CommitId → Bool)
    (hf : ∀ c, is_immutable c = .ok (f c)) (hg : ∀ c, in_filter c = .ok (g c)) :
    ∀ (idxs : List Nat) (nodes : List GraphNode),
      markGraphLoop is_immutable in_filter wc idxs nodes =
        (markPure wc f g idxs nodes, none) := by
  intro idxs
  induction idxs with
  | nil => intro nodes; rfl
  | cons idx rest ih =>
    intro nodes
    simp only [markGraphLoop, markPure, recolorNode, hf, hg]
    rw [ih]

/-- Pointwise description of `markPure`: an index both listed and in
range is recolored, anything else is untouched. -/
theorem markPure_getD (wc : Option CommitId) (f g : CommitId → Bool) :
    ∀ (idxs : List Nat) (nodes : List GraphNode) (i : Nat) (d : GraphNode),
      (markPure wc f g idxs nodes).getD i d =
        if i ∈ idxs ∧ i < nodes.length then recolorNode wc f g (nodes.getD i d)
        else nodes.getD i d := by
  intro idxs
  induction idxs with
  | nil =>
    intro nodes i d
    simp [markPure]
  | cons idx rest ih =>
    intro nodes i d
    simp only [markPure]
    rw [ih]
    rw [List.length_set]
    by_cases heq : i = idx
    · subst heq
      by_cases hlen : i < nodes.length
      · rw [list_getD_set_eq nodes i _ d hlen]
        by_cases hmem : i ∈ rest
        · simp only [hmem, hlen, and_self, if_pos, List.mem_cons, true_or, true_and]
          rw [list_getD_irrel nodes i default d hlen]
          exact recolorNode_idem wc f g _
        · simp only [hmem, hlen, false_and, if_neg, not_false_iff, List.mem_cons, true_or,
            true_and, if_pos]
          rw [list_getD_irrel nodes i default d hlen]
      · have hle : nodes.length ≤ i := Nat.le_of_not_lt hlen
        rw [list_set_of_length_le nodes i _ hle]
        simp [hlen]
    · rw [list_getD_set_ne nodes idx i _ d (fun e => heq e.symm)]
      by_cases hmem : i ∈ rest <;> by_cases hlen : i < nodes.length <;>
        simp [hmem, hlen, heq, List.mem_cons]

/-- `markPure` preserves the length of the node list. -/
theorem markPure_length (wc : Option CommitId) (f g : CommitId → Bool) :
    ∀ (idxs : List Nat) (nodes : List GraphNode),
      (markPure wc f g idxs nodes).length = nodes.length := by
  intro idxs
  induction idxs with
  | nil => intro nodes; rfl
  | cons idx rest ih =>
    intro nodes
    simp only [markPure]
    rw [ih, List.length_set]

/-! ## Lemmas about `mark_graph` and the two `update` blocks -/

/-- `mark_graph` changes nothing of the app state except the node list,
and changes the node list only in its colors. -/
theorem mark_graph_app_fields (app : ExplorerApp) :
    (mark_graph app).1.edges = app.edges ∧
    (mark_graph app).1.node_idxs = app.node_idxs ∧
    (mark_graph app).1.view_revset = app.view_revset ∧
    (mark_graph app).1.filter_revset = app.filter_revset ∧
    (mark_graph app).1.jj_graph = app.jj_graph ∧
    (mark_graph app).1.working_copy_commit_id = app.working_copy_commit_id ∧
    ((mark_graph app).1.nodes).map (fun n => (n.payload, n.label)) =
      app.nodes.map (fun n => (n.payload, n.label)) := by
  simp only [mark_graph]
  cases himm : get_revset app.jj_graph "immutable()" with
  | error e => exact ⟨rfl, rfl, rfl, rfl, rfl, rfl, rfl⟩
  | ok rv =>
    cases hfil : get_revset app.jj_graph app.filter_revset.value with
    | ok fr =>
      dsimp only
      have hs := markGraphLoop_structure rv.containing fr.containing
        app.working_copy_commit_id app.node_idxs app.nodes
      cases hloop : markGraphLoop rv.containing fr.containing
          app.working_copy_commit_id app.node_idxs app.nodes with
      | mk ns' operr =>
        rw [hloop] at hs
        cases operr with
        | none => exact ⟨rfl, rfl, rfl, rfl, rfl, rfl, hs⟩
        | some err => exact ⟨rfl, rfl, rfl, rfl, rfl, rfl, hs⟩
    | error e =>
      dsimp only
      have hs := markGraphLoop_structure rv.containing (fun _ => .ok false)
        app.working_copy_commit_id app.node_idxs app.nodes
      cases hloop : markGraphLoop rv.containing (fun _ => .ok false)
          app.working_copy_commit_id app.node_idxs app.nodes with
      | mk ns' operr =>
        rw [hloop] at hs
        cases operr with
        | none => exact ⟨rfl, rfl, rfl, rfl, rfl, rfl, hs⟩
        | some err => exact ⟨rfl, rfl, rfl, rfl, rfl, rfl, hs⟩

/-- When resolving `immutable()` fails, `mark_graph` aborts before the
loop: the state is returned untouched with a `JjError`. -/
theorem mark_graph_immutable_error (app : ExplorerApp) (e : RevsetError)
    (himm : get_revset app.jj_graph "immutable()" = .error e) :
    mark_graph app = (app, .error MarkError.JjError) := by
  simp [mark_graph, himm]

/-- The filter block never touches the view field, the edges, the node
index list, the engine, or the payload/label structure of the nodes. -/
theorem updateFilter_fields (app : ExplorerApp) (b : Bool) :
    (updateFilter app b).edges = app.edges ∧
    (updateFilter app b).node_idxs = app.node_idxs ∧
    (updateFilter app b).view_revset = app.view_revset ∧
    (updateFilter app b).jj_graph = app.jj_graph ∧
    ((updateFilter app b).nodes.map (fun n => (n.payload, n.label)) =
      app.nodes.map (fun n => (n.payload, n.label))) := by
  obtain ⟨h1, h2, h3, h4, h5, h6, h7⟩ := mark_graph_app_fields app
  unfold updateFilter
  by_cases hcond : (b || (app.filter_revset.value != app.filter_revset.old_value)) = true
  · rw [if_pos hcond]
    exact ⟨h1, h2, h3, h5, h7⟩
  · rw [if_neg hcond]
    exact ⟨rfl, rfl, rfl, rfl, rfl⟩

/-- A clean view field makes the view block a no-op. -/
theorem updateView_clean (app : ExplorerApp)
    (hview : app.view_revset.value = app.view_revset.old_value) :
    updateView app = app := by
  simp [updateView, hview]

/-- A successful build returns exactly the node indices `0 … n-1` for its
`n` nodes. -/
theorem create_graph_ok_idxs (jj : JjGraph) (s : String)
    (nodes : List GraphNode) (edges : List (Nat × Nat)) (node_idxs : List Nat) (lh : Bool)
    (h : create_graph jj s = .ok (nodes, edges, node_idxs, lh)) :
    node_idxs = List.range nodes.length := by
  cases hr : get_revset jj s with
  | error e => simp [create_graph, hr] at h
  | ok rv =>
    simp only [create_graph, hr] at h
    cases hb : buildNodes jj.repo jj.repo.wcCommitId (rv.iterGraph.take MAX_NODES) [] [] [] [] with
    | error e => rw [hb] at h; cases h
    | ok q =>
      obtain ⟨ns, idxsOut, mOut, esOut⟩ := q
      rw [hb] at h
      simp only [Except.ok.injEq, Prod.mk.injEq] at h
      obtain ⟨hns, hes, hidxs, hlh⟩ := h
      obtain ⟨h1, h2, _⟩ := buildNodes_ok_shape jj.repo jj.repo.wcCommitId _ _ _ _ _ _ _ _ _ hb
      subst hns
      rw [← hidxs, h2, List.range_eq_range']
      simp at h1
      rw [h1]
      simp

/-! ## C1 — engine error during classification -/

/-- C1 counterexample: with an immutability probe that fails on the
second node (an engine error during classification), `mark_graph`
reports `JjError`, yet the first node has already been recolored — the
classification was not left untouched — and the tick clears the
previously recorded selection-field error instead of leaving it
unchanged. -/
theorem mark_probe_error_recolors_counterexample :
    (mark_graph appProbeFail).2 = .error MarkError.JjError ∧
    appProbeFail.filter_revset.error = some "old error" ∧
    ((update appProbeFail).nodes.getD 0 default).color ≠
      (appProbeFail.nodes.getD 0 default).color ∧
    (update appProbeFail).filter_revset.error = none := by
  refine ⟨rfl, rfl, ?_, rfl⟩
  decide

/-- C1 amended: when *resolving* the fixed immutability query fails, the
whole classification for the tick is abandoned before any node is
touched — graph, node list and every node color stay exactly as after
the previous tick — and in every engine-error (`JjError`) case the tick
sets the selection field's error to `none`, clearing any previous error
rather than leaving it unchanged. (When a membership *probe* fails
partway through, nodes before the failure point have already been
recolored; see the counterexample.) -/
theorem mark_immutable_engine_error_behavior (app : ExplorerApp)
    (hview : app.view_revset.value = app.view_revset.old_value)
    (hfilter : app.filter_revset.value ≠ app.filter_revset.old_value) :
    ((∃ e, get_revset app.jj_graph "immutable()" = .error e) →
      mark_graph app = (app, .error MarkError.JjError) ∧
      (update app).nodes = app.nodes ∧
      (update app).edges = app.edges ∧
      (update app).node_idxs = app.node_idxs ∧
      (update app).view_revset = app.view_revset ∧
      (update app).filter_revset.error = none) ∧
    ((mark_graph app).2 = .error MarkError.JjError →
      (update app).filter_revset.error = none) := by
  have hbv : (app.view_revset.value != app.view_revset.old_value) = false := by
    simp [hview]
  have hbf : (app.filter_revset.value != app.filter_revset.old_value) = true :=
    bne_iff_ne.mpr hfilter
  have hupd : update app = updateFilter app false := by
    rw [update, hbv, updateView_clean app hview]
  constructor
  · rintro ⟨e, he⟩
    have hmk := mark_graph_immutable_error app e he
    refine ⟨hmk, ?_, ?_, ?_, ?_, ?_⟩ <;>
      simp [hupd, updateFilter, hbf, hmk]
  · intro hJj
    rw [hupd]
    simp only [updateFilter, Bool.false_or, hbf, if_true]
    rw [hJj]

/-- Witness for C1 amended at `appEngineDown` (its engine cannot resolve
any revset, so `immutable()` fails): the state survives the tick and the
stale selection error is cleared. -/
theorem mark_immutable_engine_error_behavior_witness :
    mark_graph appEngineDown = (appEngineDown, .error MarkError.JjError) ∧
    (update appEngineDown).nodes = appEngineDown.nodes ∧
    (update appEngineDown).filter_revset.error = none := by
  obtain ⟨h1, h2, _, _, _, h6⟩ :=
    (mark_immutable_engine_error_behavior appEngineDown rfl (by decide)).1
      ⟨.ParseError "bad", rfl⟩
  exact ⟨h1, h2, h6⟩

/-! ## C6 — failed build leaves the graph untouched -/

/-- C6: a failed build (parse or engine error) leaves the displayed
graph, edges and node list untouched, records the error message on the
view field, marks the text as processed, and no further rebuild is
attempted until the text changes: with the text unchanged the view block
is a no-op for every replacement engine. The classification step that
runs in the same tick can only touch node colors, never the node or edge
structure. -/
theorem build_failure_preserves_graph (app : ExplorerApp) (err : CreateError)
    (hdirty : app.view_revset.value ≠ app.view_revset.old_value)
    (hfail : create_graph app.jj_graph app.view_revset.value = .error err) :
    (updateView app).nodes = app.nodes ∧
    (updateView app).edges = app.edges ∧
    (updateView app).node_idxs = app.node_idxs ∧
    (updateView app).view_revset.error = some err.msg ∧
    (updateView app).view_revset.old_value = app.view_revset.value ∧
    (update app).edges = app.edges ∧
    (update app).node_idxs = app.node_idxs ∧
    ((update app).nodes.map (fun n => (n.payload, n.label)) =
      app.nodes.map (fun n => (n.payload, n.label))) ∧
    (update app).view_revset.error = some err.msg ∧
    (∀ jj2 : JjGraph,
      updateView { updateView app with jj_graph := jj2 } =
        { updateView app with jj_graph := jj2 }) := by
  have hbv : (app.view_revset.value != app.view_revset.old_value) = true :=
    bne_iff_ne.mpr hdirty
  have hav : updateView app = { app with view_revset := { app.view_revset with
      error := some err.msg, old_value := app.view_revset.value } } := by
    cases err with
    | RevsetParseError m => simp [updateView, hbv, hfail, CreateError.msg]
    | JjError m => simp [updateView, hbv, hfail, CreateError.msg]
  have hupd : update app = updateFilter (updateView app) true := by
    rw [update, hbv]
  obtain ⟨f1, f2, f3, f4, f5⟩ := updateFilter_fields (updateView app) true
  refine ⟨by rw [hav], by rw [hav], by rw [hav], by rw [hav], by rw [hav],
    ?_, ?_, ?_, ?_, ?_⟩
  · rw [hupd, f1, hav]
  · rw [hupd, f2, hav]
  · rw [hupd, f5, hav]
  · rw [hupd, f3, hav]
  · intro jj2
    apply updateView_clean
    rw [hav]

/-- Witness for C6: a view query that fails to parse over `jjTwo` leaves
the single-node graph as it was and records the rendered parse error. -/
theorem build_failure_preserves_graph_witness :
    (updateView appTwoBadView).nodes = appTwoBadView.nodes ∧
    (updateView appTwoBadView).view_revset.error =
      some "Failed to parse revset: parse" ∧
    (update appTwoBadView).edges = appTwoBadView.edges := by
  obtain ⟨h1, _, _, h4, _, h6, _, _, _, _⟩ :=
    build_failure_preserves_graph appTwoBadView
      (.RevsetParseError "Failed to parse revset: parse") (by decide) rfl
  exact ⟨h1, h4, h6⟩

/-! ## C3 — error field after a successful build -/

/-- C3 counterexample: a successful build that hits the node cap does
not leave the view field error-free — the overflow warning is recorded
in the view field's error slot. -/
theorem build_cap_sets_error_counterexample :
    (∃ r, create_graph appBig.jj_graph appBig.view_revset.value = .ok r) ∧
    (update appBig).view_revset.error =
      some "Node limit reached. The graph is incomplete." := by
  exact ⟨⟨_, rfl⟩, rfl⟩

/-- C3 amended: on a successful build the view field's error is set to
`none` when the node cap was not hit, and to the warning message
"Node limit reached. The graph is incomplete." when it was; there is no
separate overflow flag in the app state. -/
theorem build_success_error_field (app : ExplorerApp)
    (nodes : List GraphNode) (edges : List (Nat × Nat)) (node_idxs : List Nat)
    (limit_hit : Bool)
    (hdirty : app.view_revset.value ≠ app.view_revset.old_value)
    (hok : create_graph app.jj_graph app.view_revset.value =
      .ok (nodes, edges, node_idxs, limit_hit)) :
    (updateView app).view_revset.error =
      (if limit_hit then some "Node limit reached. The graph is incomplete." else none) ∧
    (update app).view_revset.error =
      (if limit_hit then some "Node limit reached. The graph is incomplete." else none) := by
  have hbv : (app.view_revset.value != app.view_revset.old_value) = true :=
    bne_iff_ne.mpr hdirty
  have hav : updateView app = { app with
      nodes := nodes,
      edges := edges,
      node_idxs := node_idxs,
      view_revset := { app.view_revset with
        error := if limit_hit then some "Node limit reached. The graph is incomplete." else none,
        old_value := app.view_revset.value } } := by
    simp [updateView, hbv, hok]
  have hupd : update app = updateFilter (updateView app) true := by
    rw [update, hbv]
  obtain ⟨f1, f2, f3, f4, f5⟩ := updateFilter_fields (updateView app) true
  exact ⟨by rw [hav], by rw [hupd, f3, hav]⟩

/-- Witness for C3 amended: the two-node build does not hit the cap and
the previously recorded view error is cleared. -/
theorem build_success_error_field_witness :
    (updateView appTwoView).view_revset.error = none ∧
    (update appTwoView).view_revset.error = none :=
  build_success_error_field appTwoView
    [{ payload := 5, label := "@ a", color := none },
     { payload := 9, label := "a", color := none }]
    [(0, 1)] [0, 1] false (by decide) rfl

/-! ## C8 — malformed selection query with a valid view query -/

/-- C8 counterexample: a valid view query (its build succeeds) paired
with a malformed selection query does not always leave the view field
error-free — when the build hits the node cap, the view field records
the overflow warning. -/
theorem bad_filter_cap_view_error_counterexample :
    get_revset appBigBadFilter.jj_graph appBigBadFilter.filter_revset.value =
      .error (.ParseError "syntax") ∧
    (∃ r, create_graph appBigBadFilter.jj_graph appBigBadFilter.view_revset.value = .ok r) ∧
    (update appBigBadFilter).view_revset.error =
      some "Node limit reached. The graph is incomplete." ∧
    (update appBigBadFilter).filter_revset.error =
      some "Failed to parse revset: syntax" := by
  exact ⟨rfl, ⟨_, rfl⟩, rfl, rfl⟩

/-- C8 amended: for a valid view query whose build succeeds *without
hitting the node cap*, paired with a selection query that fails to
resolve, the full node/edge graph is still built and every node is
classified with the `NoMatch` (Unmatched) variant while keeping its
working-copy/immutability identity; the selection field records the
rendered parse error and the view field records none. -/
theorem bad_filter_good_view (app : ExplorerApp)
    (nodes : List GraphNode) (edges : List (Nat × Nat)) (node_idxs : List Nat)
    (rv : RevsetData) (f : CommitId → Bool) (pmsg : String)
    (hdirty : app.view_revset.value ≠ app.view_revset.old_value)
    (hok : create_graph app.jj_graph app.view_revset.value =
      .ok (nodes, edges, node_idxs, false))
    (hfil : get_revset app.jj_graph app.filter_revset.value = .error (.ParseError pmsg))
    (himm : get_revset app.jj_graph "immutable()" = .ok rv)
    (hprobe : ∀ c, rv.containing c = .ok (f c)) :
    (update app).view_revset.error = none ∧
    (update app).filter_revset.error = some ("Failed to parse revset: " ++ pmsg) ∧
    (update app).edges = edges ∧
    (update app).node_idxs = node_idxs ∧
    (update app).nodes.length = nodes.length ∧
    (∀ i d, i < nodes.length →
      ((update app).nodes.getD i d).payload = (nodes.getD i d).payload ∧
      ((update app).nodes.getD i d).label = (nodes.getD i d).label ∧
      ((update app).nodes.getD i d).color =
        some (colorMap
          (nodeTypeOf app.working_copy_commit_id ((nodes.getD i d).payload)
            (f ((nodes.getD i d).payload)))
          FilterMatch.NoMatch)) := by
  have hbv : (app.view_revset.value != app.view_revset.old_value) = true :=
    bne_iff_ne.mpr hdirty
  have hidx : node_idxs = List.range nodes.length :=
    create_graph_ok_idxs app.jj_graph app.view_revset.value nodes edges node_idxs false hok
  have hav : updateView app = { app with
      nodes := nodes,
      edges := edges,
      node_idxs := node_idxs,
      view_revset := { app.view_revset with
        error := none, old_value := app.view_revset.value } } := by
    simp [updateView, hbv, hok]
  have hupd : update app = updateFilter (updateView app) true := by
    rw [update, hbv]
  have hmark : mark_graph (updateView app) =
      ({ updateView app with
          nodes := markPure app.working_copy_commit_id f (fun _ => false) node_idxs nodes },
        .error (MarkError.RevsetParseError ("Failed to parse revset: " ++ pmsg))) := by
    rw [hav]
    simp only [mark_graph]
    rw [hfil, himm]
    dsimp only
    rw [markGraphLoop_total rv.containing (fun _ => .ok false) app.working_copy_commit_id f
      (fun _ => false) hprobe (fun c => rfl) node_idxs nodes]
    rfl
  have hnodes : (update app).nodes =
      markPure app.working_copy_commit_id f (fun _ => false) node_idxs nodes := by
    rw [hupd]
    simp only [updateFilter]
    rw [hmark]
    simp
  obtain ⟨f1, f2, f3, f4, f5⟩ := updateFilter_fields (updateView app) true
  refine ⟨?_, ?_, ?_, ?_, ?_, ?_⟩
  · rw [hupd, f3, hav]
  · rw [hupd]
    simp only [updateFilter]
    rw [hmark]
    simp
  · rw [hupd, f1, hav]
  · rw [hupd, f2, hav]
  · rw [hnodes, markPure_length]
  · intro i d hi
    have hmem : i ∈ node_idxs := by
      rw [hidx]
      exact List.mem_range.mpr hi
    rw [hnodes, markPure_getD]
    rw [if_pos ⟨hmem, hi⟩]
    exact ⟨rfl, rfl, rfl⟩

/-- Witness for C8 amended at the two-node build of `jjTwo` with the
malformed selection query "(((": the working-copy node keeps its
identity color in the Unmatched shade, the regular node gets the regular
Unmatched shade, and the two error fields land as described. -/
theorem bad_filter_good_view_witness :
    (update appTwoBadFilter).view_revset.error = none ∧
    (update appTwoBadFilter).filter_revset.error = some "Failed to parse revset: parse" ∧
    ((update appTwoBadFilter).nodes.getD 0 default).color = some 0x295923ff ∧
    ((update appTwoBadFilter).nodes.getD 1 default).color = some 0x636222ff := by
  obtain ⟨h1, h2, h3, h4, h5, h6⟩ := bad_filter_good_view appTwoBadFilter
    [{ payload := 5, label := "@ a", color := none },
     { payload := 9, label := "a", color := none }]
    [(0, 1)] [0, 1]
    { iterGraph := [], containing := fun c => .ok (c == 5) }
    (fun c => c == 5) "parse"
    (by decide) rfl rfl rfl (fun c => rfl)
  refine ⟨h1, h2, ?_, ?_⟩
  · exact (h6 0 default (by decide)).2.2
  · exact (h6 1 default (by decide)).2.2

end RevsetExplorer
